import Mathlib

/-!
Verification development for `build-scripts/ci_parser/ci_parser.py`: a shallow
embedding of the concurrent JUnit-XML extraction-and-aggregation pipeline, with
theorems settling the specification claims about it.

The embedding models:
  * parsed XML documents (`XMLElement`) with ElementTree-style traversal
    (`iter`, `findall` with the `.//` descendant axis);
  * the JUnit data model (`JUnitTestCase`, `JUnitTestSuite`) — these live in
    `junit_helpers.py`, which is not among the sources, so they are modelled
    from the spec where noted;
  * the per-file extraction worker `process_xml_file`, the orchestrator
    `extract_junit_from_test_run`, and the report emitter
    `append_failure_results`;
  * a micro-step interleaving model of two workers racing on the shared
    suite registry (lines 179-183 of the source).

Python exceptions are modelled with `Except`; machine-level details (actual
thread scheduling, file descriptors) are abstracted as explained at each
definition.
-/

namespace CIParser

/-! ## XML documents

`xml.etree.ElementTree` documents, restricted to what `ci_parser.py` reads:
the element tag, the `name` attribute (`root.get('name')`, line 175), and the
child elements. -/

inductive XMLElement : Type where
  | mk (tag : String) (nameAttr : Option String) (children : List XMLElement)

def XMLElement.tag : XMLElement → String
  | .mk t _ _ => t

def XMLElement.nameAttr : XMLElement → Option String
  | .mk _ n _ => n

def XMLElement.children : XMLElement → List XMLElement
  | .mk _ _ c => c

mutual

/-- Document-order traversal of an element and all its descendants, as
iterated by `root.iter(tag)` (line 237). -/
def XMLElement.selfAndDescendants : XMLElement → List XMLElement
  | .mk t n cs => .mk t n cs :: listDescendants cs

/-- Concatenated traversals of a list of sibling subtrees. -/
def listDescendants : List XMLElement → List XMLElement
  | [] => []
  | c :: cs => XMLElement.selfAndDescendants c ++ listDescendants cs

end

/-- `root.findall('.//testcase')` (line 228): all matching elements strictly
below the root, at any depth (the `.//` axis does not match the root itself). -/
def findallAnywhere (t : String) (e : XMLElement) : List XMLElement :=
  (listDescendants e.children).filter (fun c => c.tag == t)

/-- `root.iter('testcase')` (line 237): all matching elements in the whole
tree, the root included. -/
def iterTag (t : String) (e : XMLElement) : List XMLElement :=
  e.selfAndDescendants.filter (fun c => c.tag == t)

theorem selfAndDescendants_eq (e : XMLElement) :
    e.selfAndDescendants = e :: listDescendants e.children := by
  cases e
  rfl

/-- When the root element is not itself a `testcase`, the `iter` traversal and
the `findall('.//')` search agree. -/
theorem iterTag_eq_findallAnywhere (t : String) (e : XMLElement) (h : e.tag ≠ t) :
    iterTag t e = findallAnywhere t e := by
  unfold iterTag findallAnywhere
  rw [selfAndDescendants_eq]
  simp [List.filter_cons, h]

/-! ## Python string operations -/

/-- Python substring containment `pat in s`, on character lists. -/
def hasSub (pat : List Char) : List Char → Bool
  | [] => pat.isEmpty
  | c :: cs => pat.isPrefixOf (c :: cs) || hasSub pat cs

/-- Python `pat in s` for strings. -/
def strContains (s pat : String) : Bool :=
  hasSub pat.toList s.toList

/-- Matching a filename against the glob `*.xml` used by
`Path(input_dir).rglob('*.xml')` (line 110). -/
def strEndsWith (s pat : String) : Bool :=
  pat.toList.isSuffixOf s.toList

/-- Python `str` applied to the result of `root.get('name')` (line 175):
`str(None)` is the string `"None"`, so a document without a `name` attribute
gets the literal suite name `"None"`. -/
def pyStr : Option String → String
  | none => "None"
  | some s => s

/-! ## Logging -/

/-- Log levels of `logging_helper.CustomLogger` as used by the source. -/
inductive LogLevel : Type where
  | debug | info | progress | warning | error | critical
deriving DecidableEq

/-- One emitted log record: its level and its message. -/
abbrev LogEvent := LogLevel × String

/-! ## JUnit data model

`JUnitTestCase`, `JUnitTestSuite` and `JUnitTestStatus` are defined in
`junit_helpers.py`, which is not among the sources; they are modelled from the
spec (section 3). -/

/-- Modelled from the spec: the status of a test case; ERROR folds into
FAILURE for counting purposes, so three statuses remain. -/
inductive JUnitTestStatus : Type where
  | PASSED | FAILURE | SKIPPED
deriving DecidableEq

/-- Modelled from the spec: one test case record — identity plus status
(timing and failure detail omitted: no claim mentions them). -/
structure JUnitTestCase where
  caseName : String
  status : JUnitTestStatus
deriving DecidableEq

/-- Modelled from the spec: the status of a testcase element is distinguished
by the presence of child failure-detail elements; an `error` child folds into
FAILURE, a `skipped` child means SKIPPED, otherwise PASSED. -/
def caseStatus (e : XMLElement) : JUnitTestStatus :=
  if e.children.any (fun c => c.tag == "failure" || c.tag == "error") then .FAILURE
  else if e.children.any (fun c => c.tag == "skipped") then .SKIPPED
  else .PASSED

/-- Modelled from the spec: `JUnitTestCase(testcase)` (line 238) — construct a
test case record from a parsed `testcase` element. -/
def JUnitTestCase.ofElement (e : XMLElement) : JUnitTestCase :=
  { caseName := pyStr e.nameAttr, status := caseStatus e }

/-- Modelled from the spec: `JUnitTestSuite` — suite name, ordered case list
(insertion order), contributing-file list, and archive/provenance path. -/
structure JUnitTestSuite where
  suiteName : String
  testcases : List JUnitTestCase
  files : List String
  archiveFile : Option String
deriving DecidableEq

/-- Modelled from the spec: `suite.add_file(file_name)` (line 235). -/
def JUnitTestSuite.add_file (s : JUnitTestSuite) (f : String) : JUnitTestSuite :=
  { s with files := s.files ++ [f] }

/-- Modelled from the spec: `suite.add_testcase(processed)` (line 239),
appending in document order. -/
def JUnitTestSuite.add_testcase (s : JUnitTestSuite) (c : JUnitTestCase) : JUnitTestSuite :=
  { s with testcases := s.testcases ++ [c] }

/-- Modelled from the spec: `suite.count(status)` (line 269). -/
def JUnitTestSuite.count (s : JUnitTestSuite) (st : JUnitTestStatus) : Nat :=
  s.testcases.countP (fun c => c.status == st)

/-- Modelled from the spec: `suite.passed()`. -/
def JUnitTestSuite.passed (s : JUnitTestSuite) : Nat := s.count .PASSED

/-- Modelled from the spec: `suite.failed()` (ERROR already folded in). -/
def JUnitTestSuite.failed (s : JUnitTestSuite) : Nat := s.count .FAILURE

/-- Modelled from the spec: `suite.skipped()`. -/
def JUnitTestSuite.skipped (s : JUnitTestSuite) : Nat := s.count .SKIPPED

/-- Modelled from the spec: `suite.file_count()`. -/
def JUnitTestSuite.file_count (s : JUnitTestSuite) : Nat := s.files.length

/-- Modelled from the spec: `suite.is_empty()` — no test cases recorded. -/
def JUnitTestSuite.is_empty (s : JUnitTestSuite) : Bool := s.testcases.isEmpty

/-- `JUnitTestSuite(suite_name)` followed by `set_archive(xml_file)`
(lines 183 and 187): a fresh empty suite owning its provenance path. -/
def newSuite (suite_name : String) (xml_file : String) : JUnitTestSuite :=
  { suiteName := suite_name, testcases := [], files := [], archiveFile := some xml_file }

/-! ## The shared suite registry

The Python side is a plain `dict` shared by the worker threads
(`test_suites`, line 118). It is modelled as an association list in insertion
order; `lookupSuite` is dict key lookup, and `suite_name in test_suites`
(line 179) is `(lookupSuite ..).isSome`. -/

abbrev Registry := List (String × JUnitTestSuite)

def lookupSuite : Registry → String → Option JUnitTestSuite
  | [], _ => none
  | (k, v) :: r, n => if k = n then some v else lookupSuite r n

theorem lookupSuite_append (r1 r2 : Registry) (n : String) :
    lookupSuite (r1 ++ r2) n =
      match lookupSuite r1 n with
      | some v => some v
      | none => lookupSuite r2 n := by
  induction r1 with
  | nil => rfl
  | cons p r ih =>
    obtain ⟨k, v⟩ := p
    by_cases h : k = n <;> simp [lookupSuite, h, ih]

theorem lookupSuite_isSome_iff_mem (r : Registry) (n : String) :
    (lookupSuite r n).isSome = true ↔ n ∈ r.map Prod.fst := by
  induction r with
  | nil => simp [lookupSuite]
  | cons p r ih =>
    obtain ⟨k, v⟩ := p
    by_cases h : k = n
    · subst h; simp [lookupSuite]
    · have h' : n ≠ k := fun e => h e.symm
      simp [lookupSuite, h, h', ih]

theorem lookupSuite_eq_none_iff (r : Registry) (n : String) :
    lookupSuite r n = none ↔ n ∉ r.map Prod.fst := by
  rw [← lookupSuite_isSome_iff_mem]
  cases h : lookupSuite r n <;> simp [h]

/-! ## Input files

A discovered file, as the worker sees it: its path and what `ET.parse` does
with its bytes. `parseFailure` models `ET.ParseError`/`EOFError` raised at
line 173 (malformed structure, truncated content); `unexpectedFailure` models
any other exception raised inside the `try` block (line 200). -/

inductive FileContent : Type where
  | parseFailure
  | unexpectedFailure (msg : String)
  | doc (root : XMLElement)

structure InputFile where
  path : String
  content : FileContent

def isDoc (f : InputFile) : Bool :=
  match f.content with
  | .doc _ => true
  | _ => false

def rootOf (f : InputFile) : XMLElement :=
  match f.content with
  | .doc r => r
  | _ => .mk "" none []

/-- The suite name a file declares: `str(root.get('name'))` (line 175). -/
def fileKey (f : InputFile) : String := pyStr (rootOf f).nameAttr

/-! ## Extraction -/

/-- The secondary filename exclusion list of `extract_test_cases`
(line 223 of the source). -/
def xml_exclusions_extract : List String := ["logback", "checkstyle"]

/-- `extract_test_cases(suite, file_name, root)` (lines 212-244): skip
style/lint reports by filename substring; count `testcase` elements anywhere
below the root; if none, warn and contribute nothing; otherwise record the
file and append one `JUnitTestCase` per element of `root.iter('testcase')`.
Returns the updated suite, the emitted log records and the returned count. -/
def extract_test_cases (suite : JUnitTestSuite) (file_name : String) (root : XMLElement) :
    JUnitTestSuite × List LogEvent × Nat :=
  if xml_exclusions_extract.any (fun x => strContains file_name x) then
    (suite, [], 0)
  else
    let test_count := (findallAnywhere "testcase" root).length
    if test_count = 0 then
      (suite, [(.warning, "Appear to be processing an .xml file without any junit tests in it: " ++ file_name)], 0)
    else
      let cases := iterTag "testcase" root
      let suite1 := cases.foldl (fun s c => s.add_testcase (JUnitTestCase.ofElement c)) (suite.add_file file_name)
      let lg : List LogEvent :=
        if cases.isEmpty then
          [(.error, "file: " ++ file_name ++ " has test_count but root.iter iterated across nothing")]
        else []
      (suite1, lg, test_count)

/-- The suite stored for a fresh name after lines 183-196 run to completion:
the empty suite, then `extract_test_cases` over it when the path contains
`.xml` (it always does for discovered files). -/
def builtSuite (xml_file : String) (root : XMLElement) : JUnitTestSuite :=
  if strContains xml_file ".xml" then
    (extract_test_cases (newSuite (pyStr root.nameAttr) xml_file) xml_file root).1
  else newSuite (pyStr root.nameAttr) xml_file

/-- The `test_count` the worker accumulates for one file (line 196). -/
def extractCount (xml_file : String) (root : XMLElement) : Nat :=
  if strContains xml_file ".xml" then
    (extract_test_cases (newSuite (pyStr root.nameAttr) xml_file) xml_file root).2.2
  else 0

/-- The log records of the extraction phase of one file. -/
def extractLogs (xml_file : String) (root : XMLElement) : List LogEvent :=
  if strContains xml_file ".xml" then
    (extract_test_cases (newSuite (pyStr root.nameAttr) xml_file) xml_file root).2.1
  else []

/-- The `test_file_count` the worker returns for one file: incremented only
when the extracted count is nonzero (lines 194-195). -/
def workerFileCount (xml_file : String) (root : XMLElement) : Nat :=
  if extractCount xml_file root = 0 then 0 else 1

/-- What one worker run produces: the registry after its dict writes, its log
records, and its outcome — `.ok (file_count, test_count)` when the worker
returns, `.error` when an exception escapes it. -/
structure WorkerOutput where
  registry : Registry
  logs : List LogEvent
  result : Except String (Nat × Nat)

/-- The message of the exception that actually escapes the worker when
`ET.parse` fails: the error-level log call at line 198 interpolates
`suite_name` into its f-string, but `suite_name` (assigned at line 175, inside
the `try`) is still unbound when line 173 raised, so evaluating the f-string
raises `UnboundLocalError` inside the handler — before `logger.error` runs and
before `return 0, 0` is reached. -/
def unboundLocalMsg : String :=
  "UnboundLocalError: local variable suite_name referenced before assignment"

/-- `process_xml_file(xml_file, input_dir, test_suites)` (lines 159-203), one
worker. On a parse failure the handler itself crashes (see `unboundLocalMsg`);
on an unexpected exception the worker logs critical and re-raises; otherwise
it reads the declared suite name, rejects a duplicate name with `(0, 0)`, and
for a fresh name claims it and extracts the test cases. -/
def process_xml_file (test_suites : Registry) (f : InputFile) : WorkerOutput :=
  match f.content with
  | .parseFailure =>
      { registry := test_suites, logs := [], result := .error unboundLocalMsg }
  | .unexpectedFailure m =>
      { registry := test_suites,
        logs := [(.critical, "Got unexpected error while parsing " ++ f.path ++ ": " ++ m ++ ". Aborting.")],
        result := .error m }
  | .doc root =>
      let suite_name := pyStr root.nameAttr
      let processingLog : LogEvent :=
        (.progress, "Processing archive: " ++ f.path ++ " for test suite: " ++ suite_name)
      if (lookupSuite test_suites suite_name).isSome then
        { registry := test_suites,
          logs := [processingLog,
                   (.error, "Got a duplicate suite_name - this will lead to race conditions. Suite: "
                      ++ suite_name ++ ". xml file: " ++ f.path ++ ". Skipping this file.")],
          result := .ok (0, 0) }
      else
        { registry := test_suites ++ [(suite_name, builtSuite f.path root)],
          logs := processingLog :: extractLogs f.path root,
          result := .ok (workerFileCount f.path root, extractCount f.path root) }

/-! ## Orchestration -/

/-- The errors `extract_junit_from_test_run` can surface: the
`FileNotFoundError` raised through `check_file_condition`/`log_and_raise`
(lines 297-307), and a worker exception re-raised at line 132. -/
inductive PipelineError : Type where
  | fileNotFound (msg : String)
  | fatal (msg : String)
deriving DecidableEq

/-- `check_file_condition(function, msg)` (lines 297-302): raises
`FileNotFoundError(msg)` when the condition is false. -/
def check_file_condition (cond : Bool) (msg : String) : Except PipelineError Unit :=
  if cond then .ok () else .error (.fileNotFound msg)

/-- The fan-out/fan-in of lines 126-136: run one worker per file against the
shared registry, accumulating `test_file_count` and `test_count`; the first
worker exception aborts the run (lines 129-132). The list order is the
completion order of the workers. -/
def processAll (test_suites : Registry) (test_file_count test_count : Nat) :
    List InputFile → Except String (Registry × Nat × Nat)
  | [] => .ok (test_suites, test_file_count, test_count)
  | f :: fs =>
      let w := process_xml_file test_suites f
      match w.result with
      | .error e => .error e
      | .ok (files, tests) => processAll w.registry (test_file_count + files) (test_count + tests) fs

/-- The primary discovery exclusion list (line 94). -/
def xml_exclusions : List String := ["split", "result_details"]

/-- Whether discovery keeps a path: it matches `rglob('*.xml')` and, since
`debug_file` and `xml_inclusions` are both `None` in the source (lines 99,
103), contains none of the exclusion substrings (line 110). -/
def discoveryKeeps (path : String) : Bool :=
  strEndsWith path ".xml" && !(xml_exclusions.any (fun x => strContains path x))

/-- The aggregate totals the orchestrator reports (lines 138-155). -/
structure RunSummary where
  registry : Registry
  archive_count : Nat
  test_file_count : Nat
  test_count : Nat
  passed : Nat
  failed : Nat
  skipped : Nat

def sumPassed (reg : Registry) : Nat := (reg.map (fun e => e.2.passed)).sum
def sumFailed (reg : Registry) : Nat := (reg.map (fun e => e.2.failed)).sum
def sumSkipped (reg : Registry) : Nat := (reg.map (fun e => e.2.skipped)).sum

/-- `extract_junit_from_test_run(input_dir)` (lines 86-156): discover and
filter the `.xml` files, fail with `FileNotFoundError` when none remain
(line 111), then run the workers and tally the totals. The input models the
recursively enumerated directory tree; `archive_count` is the counter
initialized at line 114 and logged at line 138, which nothing increments. -/
def extract_junit_from_test_run (tree : List InputFile) : Except PipelineError RunSummary :=
  let xml_files := tree.filter (fun f => discoveryKeeps f.path)
  match check_file_condition (xml_files.length != 0)
      "Found 0 .xml files in path. Cannot proceed with .xml extraction." with
  | .error e => .error e
  | .ok _ =>
      let archive_count := 0
      match processAll [] 0 0 xml_files with
      | .error m => .error (.fatal m)
      | .ok (reg, tfc, tc) =>
          .ok { registry := reg, archive_count := archive_count,
                test_file_count := tfc, test_count := tc,
                passed := sumPassed reg, failed := sumFailed reg, skipped := sumSkipped reg }

/-- Projection of a run outcome onto the reported totals, in the order
(file count, suite count, test count, passed, failed, skipped); `none` when
the run aborted. -/
def totalsOf : Except PipelineError RunSummary → Option (Nat × Nat × Nat × Nat × Nat × Nat)
  | .ok r => some (r.test_file_count, r.registry.length, r.test_count, r.passed, r.failed, r.skipped)
  | .error _ => none

/-- Whether a run outcome is the NotFound-class discovery error. -/
def isFNF : Except PipelineError RunSummary → Bool
  | .error (.fileNotFound _) => true
  | _ => false

/-! ## Report emission -/

/-- The emission loop of `append_failure_results` (lines 266-285) over the
sorted (suite name, failure count) pairs: emit one table per suite with a
nonzero failure count, add the count to the running total afterwards, and
`break` — with the critical cap log, represented by the Boolean — as soon as
the total strictly exceeds 200. Returns the names whose tables were appended
and whether the cap log fired. -/
def emitLoop : List (String × Nat) → Nat → List String × Bool
  | [], _ => ([], false)
  | (n, fc) :: rest, total =>
      let emitted : List String := if fc = 0 then [] else [n]
      let total1 := total + fc
      if 200 < total1 then (emitted, true)
      else
        let r := emitLoop rest total1
        (emitted ++ r.1, r.2)

/-- Insertion into a name-sorted list, comparing suite names as Python
`sorted` does (lexicographically on the characters). -/
def insertByName (p : String × Nat) : List (String × Nat) → List (String × Nat)
  | [] => [p]
  | q :: r => if p.1 < q.1 then p :: q :: r else q :: insertByName p r

/-- `sorted(test_suites.keys())` (line 267), paired with each suite's
failure count (line 269). -/
def sortByName (l : List (String × Nat)) : List (String × Nat) :=
  l.foldr insertByName []

/-- The sorted (name, failure count) pairs the emission loop walks. -/
def failurePairs (reg : Registry) : List (String × Nat) :=
  sortByName (reg.map (fun e => (e.1, e.2.count .FAILURE)))

/-- Modelled from the spec: the markup of one failing-suite table
(`JUnitResultBuilder`, in `junit_helpers.py`, not among the sources; the spec
leaves the markup implementation-defined). -/
def buildTable (suite_name : String) : String :=
  "<table>" ++ suite_name ++ "</table>"

/-- The rewritten document: the prior content with the section header and the
emitted tables appended into the body (lines 258-260 and 280). -/
def renderReport (prior : String) (tables : List String) : String :=
  prior ++ "<div>[Test Failure Details]</div>" ++ String.join tables

/-- The file system visible to the report emitter: path to content. -/
def FS : Type := String → Option String

/-- Overwriting one path with new content. -/
def writeFile (fs : FS) (p c : String) : FS :=
  fun q => if q = p then some c else fs q

/-- `append_failure_results(test_suites, output)` (lines 249-294): read the
existing document (an I/O failure there is fatal), walk the suites in sorted
name order emitting failure tables under the running 200 cap, then copy the
still-unmodified target to `<path>.bak` (line 288) and only then open the
target for overwrite (line 292). The result is the final file system. -/
def append_failure_results (fs : FS) (test_suites : Registry) (output : String) :
    Except String FS :=
  match fs output with
  | none => .error ("No such file: " ++ output)
  | some prior =>
      let em := emitLoop (failurePairs test_suites) 0
      let fsBak := writeFile fs (output ++ ".bak") prior
      .ok (writeFile fsBak output (renderReport prior (em.1.map buildTable)))

/-! ## The registry race, at micro-step granularity

Lines 179-183 executed by two worker threads for the same declared suite
name. Each worker performs two separate interpreter-level steps against the
shared dict: first the membership check `suite_name in test_suites`
(line 179), then — only if the check saw the name absent — the insert
`test_suites[suite_name] = JUnitTestSuite(suite_name)` (line 183). A schedule
is the interleaving of the two workers; `false` schedules a step of worker A,
`true` a step of worker B. -/

structure RaceState where
  names : List String
  aPC : Nat
  aPassed : Bool
  bPC : Nat
  bPassed : Bool

def initRace : RaceState :=
  { names := [], aPC := 0, aPassed := false, bPC := 0, bPassed := false }

def raceStep (n : String) (s : RaceState) (w : Bool) : RaceState :=
  if w then
    if s.bPC = 0 then { s with bPassed := !(s.names.contains n), bPC := 1 }
    else if s.bPC = 1 then
      { s with names := if s.bPassed then s.names ++ [n] else s.names, bPC := 2 }
    else s
  else
    if s.aPC = 0 then { s with aPassed := !(s.names.contains n), aPC := 1 }
    else if s.aPC = 1 then
      { s with names := if s.aPassed then s.names ++ [n] else s.names, aPC := 2 }
    else s

def runRace (n : String) (sched : List Bool) : RaceState :=
  sched.foldl (raceStep n) initRace

/-- Both workers passed the not-present check of line 179. -/
def bothPassed (s : RaceState) : Bool := s.aPassed && s.bPassed

/-! ## Concrete sample inputs shared by witnesses -/

/-- A passing `testcase` element named `t1`. -/
def sampleCase : XMLElement := .mk "testcase" (some "t1") []

/-- A second passing `testcase` element. -/
def sampleCase2 : XMLElement := .mk "testcase" (some "t2") []

/-- A one-test result document declaring suite name `s`. -/
def sampleDoc : XMLElement := .mk "testsuite" (some "s") [sampleCase]

/-- A two-test result document declaring the same suite name `s`. -/
def sampleDoc2 : XMLElement := .mk "testsuite" (some "s") [sampleCase, sampleCase2]

/-- A one-test result document declaring suite name `s2`. -/
def sampleDocOther : XMLElement := .mk "testsuite" (some "s2") [sampleCase2]

def fileA : InputFile := { path := "a.xml", content := .doc sampleDoc }

def fileB : InputFile := { path := "b.xml", content := .doc sampleDoc2 }

def fileC : InputFile := { path := "c.xml", content := .doc sampleDocOther }

/-- The suite the worker builds from `fileA`: one passing case `t1`. -/
def suiteA : JUnitTestSuite :=
  { suiteName := "s", testcases := [{ caseName := "t1", status := .PASSED }],
    files := ["a.xml"], archiveFile := some "a.xml" }

/-! ## Worker step lemmas -/

/-- A worker that sees its declared name already present leaves the registry
untouched and returns `(0, 0)` (lines 179-181). -/
theorem process_doc_dup (reg : Registry) (path : String) (root : XMLElement)
    (h : (lookupSuite reg (pyStr root.nameAttr)).isSome = true) :
    (process_xml_file reg { path := path, content := .doc root }).registry = reg
    ∧ (process_xml_file reg { path := path, content := .doc root }).result = .ok (0, 0) := by
  constructor <;> simp [process_xml_file, h]

/-- A worker that claims a fresh name appends exactly one entry and returns
the extracted counts (lines 183-196). -/
theorem process_doc_fresh (reg : Registry) (path : String) (root : XMLElement)
    (h : (lookupSuite reg (pyStr root.nameAttr)).isSome = false) :
    (process_xml_file reg { path := path, content := .doc root }).registry
        = reg ++ [(pyStr root.nameAttr, builtSuite path root)]
    ∧ (process_xml_file reg { path := path, content := .doc root }).result
        = .ok (workerFileCount path root, extractCount path root) := by
  constructor <;> simp [process_xml_file, h]

/-- One unfolding step of the worker fan-in. -/
theorem processAll_cons (reg : Registry) (a b : Nat) (f : InputFile) (fs : List InputFile) :
    processAll reg a b (f :: fs) =
      match (process_xml_file reg f).result with
      | .error e => .error e
      | .ok (x, y) => processAll (process_xml_file reg f).registry (a + x) (b + y) fs := rfl

/-! ## C1 — parse failures -/

/-- C1: the claim says a file whose content fails to parse is non-fatal — the
worker logs at error level, returns `(0, 0)`, and the run continues. The code
disagrees: when `ET.parse` raises (line 173), `suite_name` (line 175) has
never been assigned, yet the handler at line 198 interpolates it into the
error message, so the handler itself raises `UnboundLocalError`. That
exception escapes the worker (the later `except Exception` clause of the same
`try` does not catch an exception raised inside a sibling handler), and the
orchestrator re-raises it (lines 129-132), aborting the whole run. The worker
does create no registry entry — but it crashes instead of returning `(0, 0)`.
This theorem evaluates the model at the failing input. -/
theorem C1_parse_error_aborts_run :
    (process_xml_file [] { path := "bad.xml", content := .parseFailure }).result
        = .error unboundLocalMsg
    ∧ (process_xml_file [] { path := "bad.xml", content := .parseFailure }).registry = []
    ∧ extract_junit_from_test_run [{ path := "bad.xml", content := .parseFailure }]
        = .error (.fatal unboundLocalMsg) :=
  ⟨rfl, rfl, rfl⟩

/-! ## C3 — atomicity of the registry claim -/

/-- C3 counterexample: the claim says the not-present check and the insert
are performed as one indivisible step, so no interleaving of two workers lets
both pass the check for the same name. In the code they are two separate dict
operations (lines 179 and 183) with no lock, so the schedule
check(A), check(B), insert(A), insert(B) lets both workers pass the check for
the same suite name. -/
theorem C3_check_insert_interleaving_both_pass :
    bothPassed (runRace "dup" [false, true, false, true]) = true := rfl

/-- C3 amended: the check and the insert are two separate steps against the
shared registry, and only the schedules in which each worker's check-and-insert
pair runs without interleaving (the behaviour the spec prescribes as a single
critical section) prevent a double claim: under either such schedule at most
one worker passes the not-present check, for every suite name. -/
theorem C3_atomic_claim_prevents_double_pass (n : String) :
    bothPassed (runRace n [false, false, true, true]) = false
    ∧ bothPassed (runRace n [true, true, false, false]) = false := by
  constructor <;>
    simp [runRace, raceStep, initRace, bothPassed]

/-! ## C4 — the 200-failure report cap -/

/-- C4 counterexample: the claim says that after the 200th failure is reached
no further failure tables are appended. The cap check (line 283) runs after a
suite's whole table has been appended and fires only when the running total
strictly exceeds 200: with suites of 200 and 50 failures (250 in total), the
first suite alone reaches the 200th failure, yet the second suite's table is
still appended before the loop stops. -/
theorem C4_table_emitted_after_cap_reached :
    emitLoop [("suite-a", 200), ("suite-b", 50)] 0 = (["suite-a", "suite-b"], true) := rfl

/-- C4 amended: emission keeps a running total of failures across the sorted
suites and stops — with the cap logged, not an error — as soon as the total
strictly exceeds 200; the suite whose table pushes the total past 200 is
still emitted in full, and a total of exactly 200 does not stop emission.
Suites after the crossing point contribute no tables, and the emitter still
completes normally (backup and write still happen). -/
theorem C4_emission_stops_beyond_cap :
    (∀ (pre post : List (String × Nat)) (t : Nat), pre ≠ [] →
        200 < t + (pre.map Prod.snd).sum →
        emitLoop (pre ++ post) t = ((emitLoop pre t).1, true))
    ∧ (∀ (fs : FS) (reg : Registry) (output prior : String), fs output = some prior →
        ∃ fs2, append_failure_results fs reg output = .ok fs2) := by
  constructor
  · intro pre
    induction pre with
    | nil => intro post t hne _; exact absurd rfl hne
    | cons p rest ih =>
      intro post t _ hcross
      obtain ⟨n, fc⟩ := p
      by_cases hstop : 200 < t + fc
      · simp [emitLoop, hstop]
      · have hsum : 200 < (t + fc) + (rest.map Prod.snd).sum := by
          simp only [List.map_cons, List.sum_cons] at hcross
          omega
        have hrest : rest ≠ [] := by
          intro he
          rw [he] at hsum
          simp at hsum
          omega
        have hih := ih post (t + fc) hrest hsum
        simp [emitLoop, hstop, hih]
  · intro fs reg output prior h
    refine ⟨writeFile (writeFile fs (output ++ ".bak") prior) output
      (renderReport prior ((emitLoop (failurePairs reg) 0).1.map buildTable)), ?_⟩
    simp [append_failure_results, h]

/-- Witness for C4: a concrete crossing — suites of 150 and 100 failures
cross the cap inside the second table, and no table for a third suite is
emitted; and a concrete emitter run completes normally. -/
theorem C4_emission_stops_beyond_cap_witness :
    emitLoop ([("a", 150), ("b", 100)] ++ [("c", 5)]) 0
        = ((emitLoop [("a", 150), ("b", 100)] 0).1, true)
    ∧ ∃ fs2, append_failure_results
        (fun p => if p = "out.html" then some "<html></html>" else none) [] "out.html" = .ok fs2 :=
  ⟨C4_emission_stops_beyond_cap.1 [("a", 150), ("b", 100)] [("c", 5)] 0 (by decide) (by decide),
   C4_emission_stops_beyond_cap.2 _ [] "out.html" "<html></html>" (by decide)⟩

/-! ## C2 — at most one registry entry per suite name -/

/-- Invariants of the worker fan-in: distinct keys are preserved, present
keys stay present, and every file that parsed as a document has its declared
name present at the end. -/
theorem processAll_registry_invariant (l : List InputFile) :
    ∀ (reg0 : Registry) (a b : Nat) (reg : Registry) (tfc tc : Nat),
      processAll reg0 a b l = .ok (reg, tfc, tc) →
      ((reg0.map Prod.fst).Nodup → (reg.map Prod.fst).Nodup)
      ∧ (∀ n, (lookupSuite reg0 n).isSome = true → (lookupSuite reg n).isSome = true)
      ∧ (∀ f ∈ l, ∀ root, f.content = .doc root →
          (lookupSuite reg (pyStr root.nameAttr)).isSome = true) := by
  induction l with
  | nil =>
    intro reg0 a b reg tfc tc h
    simp [processAll] at h
    obtain ⟨rfl, -, -⟩ := h
    exact ⟨id, fun n hn => hn, by simp⟩
  | cons f fs ih =>
    intro reg0 a b reg tfc tc h
    obtain ⟨path, content⟩ := f
    cases content with
    | parseFailure => rw [processAll_cons] at h; simp [process_xml_file] at h
    | unexpectedFailure m => rw [processAll_cons] at h; simp [process_xml_file] at h
    | doc root =>
      by_cases hdup : (lookupSuite reg0 (pyStr root.nameAttr)).isSome = true
      · rw [processAll_cons] at h
        rw [(process_doc_dup reg0 path root hdup).2, (process_doc_dup reg0 path root hdup).1] at h
        obtain ⟨i1, i2, i3⟩ := ih reg0 _ _ reg tfc tc h
        refine ⟨i1, i2, ?_⟩
        intro g hg root' hc'
        rcases List.mem_cons.mp hg with rfl | hmem
        · cases hc'
          exact i2 _ hdup
        · exact i3 g hmem root' hc'
      · have hfresh : (lookupSuite reg0 (pyStr root.nameAttr)).isSome = false :=
          Bool.not_eq_true _ ▸ eq_false_of_ne_true hdup
        rw [processAll_cons] at h
        rw [(process_doc_fresh reg0 path root hfresh).2, (process_doc_fresh reg0 path root hfresh).1] at h
        obtain ⟨i1, i2, i3⟩ := ih _ _ _ reg tfc tc h
        have hkeyPresent : (lookupSuite (reg0 ++ [(pyStr root.nameAttr, builtSuite path root)])
            (pyStr root.nameAttr)).isSome = true := by
          rw [lookupSuite_append]
          cases hl : lookupSuite reg0 (pyStr root.nameAttr) with
          | some v => rw [hl] at hfresh; simp at hfresh
          | none => simp [lookupSuite]
        refine ⟨?_, ?_, ?_⟩
        · intro hnd
          apply i1
          rw [List.map_append, List.nodup_append]
          refine ⟨hnd, by simp, ?_⟩
          intro x hx
          have hnm : pyStr root.nameAttr ∉ reg0.map Prod.fst := by
            rw [← lookupSuite_isSome_iff_mem, hfresh]
            simp
          simp only [List.map_cons, List.map_nil, List.mem_singleton]
          intro hx1
          exact hnm (hx1 ▸ hx)
        · intro n hn
          apply i2
          rw [lookupSuite_append]
          cases hl : lookupSuite reg0 n with
          | some v => simp
          | none => rw [hl] at hn; simp at hn
        · intro g hg root' hc'
          rcases List.mem_cons.mp hg with rfl | hmem
          · cases hc'
            exact i2 _ hkeyPresent
          · exact i3 g hmem root' hc'

/-- C2: a suite name maps to at most one registry entry. A worker that finds
its declared name already present leaves the registry wholly unchanged — so
the existing suite's file set and case list are untouched — and returns
`(0, 0)` (lines 179-181); and for every completion order of the workers, the
final registry has pairwise-distinct names, with exactly one entry for the
name of each file that parsed as a document. -/
theorem C2_suite_name_claimed_once :
    (∀ (reg : Registry) (path : String) (root : XMLElement),
        (lookupSuite reg (pyStr root.nameAttr)).isSome = true →
        (process_xml_file reg { path := path, content := .doc root }).registry = reg
        ∧ (process_xml_file reg { path := path, content := .doc root }).result = .ok (0, 0))
    ∧ (∀ (l : List InputFile) (reg : Registry) (tfc tc : Nat),
        processAll [] 0 0 l = .ok (reg, tfc, tc) →
        (reg.map Prod.fst).Nodup
        ∧ ∀ f ∈ l, ∀ root, f.content = .doc root →
            (reg.map Prod.fst).count (pyStr root.nameAttr) = 1) := by
  refine ⟨process_doc_dup, ?_⟩
  intro l reg tfc tc h
  obtain ⟨i1, -, i3⟩ := processAll_registry_invariant l [] 0 0 reg tfc tc h
  have hnd : (reg.map Prod.fst).Nodup := i1 (by simp)
  refine ⟨hnd, ?_⟩
  intro f hf root hc
  exact List.count_eq_one_of_mem hnd
    ((lookupSuite_isSome_iff_mem reg (pyStr root.nameAttr)).mp (i3 f hf root hc))

/-- Witness for C2: a concrete collision — `b.xml` declares the name `s`
already owned by `a.xml`; and the concrete completed run over both files. -/
theorem C2_suite_name_claimed_once_witness :
    ((process_xml_file [("s", suiteA)] { path := "b.xml", content := .doc sampleDoc2 }).registry
        = [("s", suiteA)]
      ∧ (process_xml_file [("s", suiteA)] { path := "b.xml", content := .doc sampleDoc2 }).result
        = .ok (0, 0))
    ∧ ((([("s", suiteA)] : Registry).map Prod.fst).Nodup
      ∧ ∀ f ∈ [fileA, fileB], ∀ root, f.content = .doc root →
          (([("s", suiteA)] : Registry).map Prod.fst).count (pyStr root.nameAttr) = 1) :=
  ⟨C2_suite_name_claimed_once.1 [("s", suiteA)] "b.xml" sampleDoc2 (by decide),
   C2_suite_name_claimed_once.2 [fileA, fileB] [("s", suiteA)] 1 1 rfl⟩

/-! ## C6 — zero candidate files -/

/-- C6: the run aborts with the NotFound-class error exactly when the
inclusion/exclusion filter leaves zero candidate files — the check at
line 111 runs before any worker is dispatched, and a nonempty candidate set
can never produce this error class later (worker failures surface as fatal
re-raises, not `FileNotFoundError`). -/
theorem C6_zero_candidates_iff_not_found (tree : List InputFile) :
    isFNF (extract_junit_from_test_run tree)
      = (tree.filter (fun f => discoveryKeeps f.path)).isEmpty := by
  unfold extract_junit_from_test_run
  cases h : tree.filter (fun f => discoveryKeeps f.path) with
  | nil => simp [h, check_file_condition, isFNF]
  | cons a as =>
    simp only [h, check_file_condition, List.length_cons]
    have hne : (as.length + 1 != 0) = true := by simp
    rw [if_pos hne]
    cases hp : processAll [] 0 0 (a :: as) with
    | error m => simp [isFNF]
    | ok v =>
      obtain ⟨reg, tfc, tc⟩ := v
      simp [isFNF]

/-! ## C7 — backup before overwrite -/

/-- C7: report emission copies the existing target to `<path>.bak`
(line 288) before opening the target for overwrite (line 292): the final
state is the overwrite applied to the backed-up state, and in that
intermediate state the backup already holds the prior document's content
while the target itself is still intact — so a failure during the write
cannot destroy the pre-existing report. -/
theorem C7_backup_before_overwrite (fs : FS) (reg : Registry) (output prior : String)
    (hprior : fs output = some prior) :
    append_failure_results fs reg output
        = .ok (writeFile (writeFile fs (output ++ ".bak") prior) output
            (renderReport prior ((emitLoop (failurePairs reg) 0).1.map buildTable)))
    ∧ writeFile fs (output ++ ".bak") prior (output ++ ".bak") = some prior
    ∧ writeFile fs (output ++ ".bak") prior output = some prior := by
  refine ⟨?_, ?_, ?_⟩
  · simp [append_failure_results, hprior]
  · simp [writeFile]
  · have hne : output ≠ output ++ ".bak" := by
      intro he
      have hlen := congrArg String.length he
      rw [String.length_append] at hlen
      have h4 : (".bak" : String).length = 4 := rfl
      omega
    simp [writeFile, hne, hprior]

/-- Witness for C7 at a concrete one-file file system. -/
theorem C7_backup_before_overwrite_witness :
    append_failure_results (fun p => if p = "o.html" then some "<b></b>" else none) [] "o.html"
        = .ok (writeFile (writeFile (fun p => if p = "o.html" then some "<b></b>" else none)
            ("o.html" ++ ".bak") "<b></b>") "o.html"
            (renderReport "<b></b>" ((emitLoop (failurePairs []) 0).1.map buildTable)))
    ∧ writeFile (fun p => if p = "o.html" then some "<b></b>" else none)
        ("o.html" ++ ".bak") "<b></b>" ("o.html" ++ ".bak") = some "<b></b>"
    ∧ writeFile (fun p => if p = "o.html" then some "<b></b>" else none)
        ("o.html" ++ ".bak") "<b></b>" "o.html" = some "<b></b>" :=
  C7_backup_before_overwrite _ [] "o.html" "<b></b>" (by decide)

/-! ## C10 — the archive count -/

/-- C10: whenever a run completes, the reported archive count is zero: the
counter is initialized at line 114, logged at line 138, and nothing in the
pipeline increments it. -/
theorem C10_archive_count_always_zero (tree : List InputFile) (r : RunSummary)
    (h : extract_junit_from_test_run tree = .ok r) : r.archive_count = 0 := by
  simp only [extract_junit_from_test_run] at h
  split at h
  · cases h
  · split at h
    · cases h
    · cases h
      rfl

/-- The summary of the concrete one-file run over `fileA`. -/
def goodSummary : RunSummary :=
  { registry := [("s", suiteA)], archive_count := 0, test_file_count := 1, test_count := 1,
    passed := 1, failed := 0, skipped := 0 }

/-- Witness for C10: the concrete run over `fileA` completes and reports an
archive count of zero. -/
theorem C10_archive_count_always_zero_witness :
    extract_junit_from_test_run [fileA] = .ok goodSummary
    ∧ goodSummary.archive_count = 0 :=
  ⟨rfl, C10_archive_count_always_zero [fileA] goodSummary rfl⟩

/-! ## C5 — every test case of a valid document is extracted -/

/-- A valid result document per the spec (section 6): one root element
carrying the suite-name attribute, with the individual test cases represented
by descendant `testcase` elements — the root is a suite wrapper, not itself a
test case. -/
def validResultDoc (root : XMLElement) : Prop := root.tag ≠ "testcase"

/-- Each test case carries exactly one of the three statuses, so the three
status counts partition the case list. -/
theorem countP_status_partition (cs : List JUnitTestCase) :
    cs.countP (fun c => c.status == JUnitTestStatus.PASSED)
      + cs.countP (fun c => c.status == JUnitTestStatus.FAILURE)
      + cs.countP (fun c => c.status == JUnitTestStatus.SKIPPED) = cs.length := by
  induction cs with
  | nil => rfl
  | cons c cs ih =>
    cases h : c.status <;> simp [List.countP_cons, h] <;> omega

/-- `passed() + failed() + skipped()` is the number of recorded cases. -/
theorem passed_add_failed_add_skipped (s : JUnitTestSuite) :
    s.passed + s.failed + s.skipped = s.testcases.length :=
  countP_status_partition s.testcases

/-- The extraction fold appends one case record per iterated element, in
document order. -/
theorem foldl_add_testcase (cs : List XMLElement) (s : JUnitTestSuite) :
    (cs.foldl (fun a c => a.add_testcase (JUnitTestCase.ofElement c)) s).testcases
      = s.testcases ++ cs.map JUnitTestCase.ofElement := by
  induction cs generalizing s with
  | nil => simp
  | cons c cs ih =>
    rw [List.foldl_cons, ih]
    simp [JUnitTestSuite.add_testcase, List.append_assoc]

/-- For a non-excluded filename and a root that is not itself a `testcase`
element, the built suite holds exactly one case record per `testcase` element
of the document. -/
theorem builtSuite_testcases (path : String) (root : XMLElement)
    (hxml : strContains path ".xml" = true)
    (hlb : strContains path "logback" = false)
    (hcs : strContains path "checkstyle" = false)
    (hroot : validResultDoc root) :
    (builtSuite path root).testcases
      = (findallAnywhere "testcase" root).map JUnitTestCase.ofElement := by
  unfold builtSuite
  rw [if_pos hxml]
  unfold extract_test_cases
  rw [if_neg (by simp [xml_exclusions_extract, hlb, hcs])]
  by_cases h0 : (findallAnywhere "testcase" root).length = 0
  · rw [if_pos h0]
    rw [List.length_eq_zero.mp h0]
    rfl
  · rw [if_neg h0]
    simp only [foldl_add_testcase, JUnitTestSuite.add_file, newSuite,
      iterTag_eq_findallAnywhere "testcase" root hroot]
    rfl

/-- For a non-excluded filename, the count the worker reports is the number
of `testcase` elements found anywhere below the root. -/
theorem extractCount_eq (path : String) (root : XMLElement)
    (hxml : strContains path ".xml" = true)
    (hlb : strContains path "logback" = false)
    (hcs : strContains path "checkstyle" = false) :
    extractCount path root = (findallAnywhere "testcase" root).length := by
  unfold extractCount
  rw [if_pos hxml]
  unfold extract_test_cases
  rw [if_neg (by simp [xml_exclusions_extract, hlb, hcs])]
  by_cases h0 : (findallAnywhere "testcase" root).length = 0
  · rw [if_pos h0, h0]
  · rw [if_neg h0]

/-- C5 counterexample: the claim quantifies over every valid result document,
but the secondary filename filter (line 223) drops the contribution of any
file whose name contains `logback` or `checkstyle` even when its content is a
perfectly valid one-test document: the suite is created with zero case
records and the worker reports zero, not one. -/
theorem C5_excluded_filename_drops_cases :
    (process_xml_file [] { path := "logback.xml", content := .doc sampleDoc }).registry
        = [("s", newSuite "s" "logback.xml")]
    ∧ (process_xml_file [] { path := "logback.xml", content := .doc sampleDoc }).result
        = .ok (0, 0)
    ∧ (findallAnywhere "testcase" sampleDoc).length = 1 :=
  ⟨rfl, rfl, rfl⟩

/-- C5 amended: for every file that parses into a valid result document with
N `testcase` elements anywhere in the hierarchy, whose declared suite name is
fresh, and whose filename passes the secondary logback/checkstyle exclusion
(the path contains `.xml`, as discovery guarantees), the worker creates a
suite with exactly N case records, reports N as its test contribution, and
`passed() + failed() + skipped()` of that suite equals N. -/
theorem C5_valid_doc_extracts_all_cases (reg : Registry) (path : String) (root : XMLElement)
    (hfresh : (lookupSuite reg (pyStr root.nameAttr)).isSome = false)
    (hxml : strContains path ".xml" = true)
    (hlb : strContains path "logback" = false)
    (hcs : strContains path "checkstyle" = false)
    (hroot : validResultDoc root) :
    ∃ s : JUnitTestSuite,
      (process_xml_file reg { path := path, content := .doc root }).registry
          = reg ++ [(pyStr root.nameAttr, s)]
      ∧ s.testcases.length = (findallAnywhere "testcase" root).length
      ∧ s.passed + s.failed + s.skipped = (findallAnywhere "testcase" root).length
      ∧ (process_xml_file reg { path := path, content := .doc root }).result
          = .ok (if (findallAnywhere "testcase" root).length = 0 then 0 else 1,
                 (findallAnywhere "testcase" root).length) := by
  have hb := builtSuite_testcases path root hxml hlb hcs hroot
  have hc := extractCount_eq path root hxml hlb hcs
  refine ⟨builtSuite path root, (process_doc_fresh reg path root hfresh).1, ?_, ?_, ?_⟩
  · rw [hb, List.length_map]
  · rw [passed_add_failed_add_skipped, hb, List.length_map]
  · rw [(process_doc_fresh reg path root hfresh).2]
    unfold workerFileCount
    rw [hc]

/-- Witness for C5 at the concrete one-test document under a fresh name. -/
theorem C5_valid_doc_extracts_all_cases_witness :
    ∃ s : JUnitTestSuite,
      (process_xml_file [] { path := "ok.xml", content := .doc sampleDoc }).registry
          = [] ++ [(pyStr sampleDoc.nameAttr, s)]
      ∧ s.testcases.length = (findallAnywhere "testcase" sampleDoc).length
      ∧ s.passed + s.failed + s.skipped = (findallAnywhere "testcase" sampleDoc).length
      ∧ (process_xml_file [] { path := "ok.xml", content := .doc sampleDoc }).result
          = .ok (if (findallAnywhere "testcase" sampleDoc).length = 0 then 0 else 1,
                 (findallAnywhere "testcase" sampleDoc).length) :=
  C5_valid_doc_extracts_all_cases [] "ok.xml" sampleDoc
    (by decide) (by decide) (by decide) (by decide) (by unfold validResultDoc; decide)

/-! ## C8 — order-independence of the aggregate totals -/

/-- The registry entry a document file produces when its name is fresh. -/
def soloEntry (f : InputFile) : String × JUnitTestSuite :=
  (fileKey f, builtSuite f.path (rootOf f))

/-- The file-count contribution of a document file processed without a
collision. -/
def soloFileCount (f : InputFile) : Nat := workerFileCount f.path (rootOf f)

/-- The test-count contribution of a document file processed without a
collision. -/
def soloTestCount (f : InputFile) : Nat := extractCount f.path (rootOf f)

/-- When every file parses as a document, the declared names are pairwise
distinct and all fresh, the fan-in is a pure map: each file appends its own
entry and the counts are plain sums of per-file contributions. -/
theorem processAll_of_docs (l : List InputFile) :
    ∀ (reg : Registry) (a b : Nat),
      (∀ f ∈ l, isDoc f = true) →
      (∀ f ∈ l, lookupSuite reg (fileKey f) = none) →
      ((l.map fileKey).Nodup) →
      processAll reg a b l
        = .ok (reg ++ l.map soloEntry,
               a + (l.map soloFileCount).sum, b + (l.map soloTestCount).sum) := by
  induction l with
  | nil => intro reg a b _ _ _; simp [processAll]
  | cons f fs ih =>
    intro reg a b hdocs hfresh hnodup
    obtain ⟨path, content⟩ := f
    cases content with
    | parseFailure =>
      have := hdocs _ (List.mem_cons_self _ _)
      simp [isDoc] at this
    | unexpectedFailure m =>
      have := hdocs _ (List.mem_cons_self _ _)
      simp [isDoc] at this
    | doc root =>
      have hkey : fileKey { path := path, content := .doc root } = pyStr root.nameAttr := rfl
      have hfresh0 : lookupSuite reg (pyStr root.nameAttr) = none := by
        have := hfresh _ (List.mem_cons_self _ _)
        rwa [hkey] at this
      have hIsSome : (lookupSuite reg (pyStr root.nameAttr)).isSome = false := by
        rw [hfresh0]; rfl
      rw [processAll_cons,
        (process_doc_fresh reg path root hIsSome).2, (process_doc_fresh reg path root hIsSome).1]
      have hred : (match Except.ok (workerFileCount path root, extractCount path root) with
          | Except.error e => (Except.error e : Except String (Registry × Nat × Nat))
          | Except.ok (x, y) =>
              processAll (reg ++ [(pyStr root.nameAttr, builtSuite path root)]) (a + x) (b + y) fs)
          = processAll (reg ++ [(pyStr root.nameAttr, builtSuite path root)])
              (a + workerFileCount path root) (b + extractCount path root) fs := rfl
      rw [hred]
      have hnm : pyStr root.nameAttr ∉ fs.map fileKey := by
        have := hnodup
        rw [List.map_cons, List.nodup_cons, hkey] at this
        exact this.1
      have hfresh1 : ∀ g ∈ fs,
          lookupSuite (reg ++ [(pyStr root.nameAttr, builtSuite path root)]) (fileKey g) = none := by
        intro g hg
        rw [lookupSuite_append, hfresh _ (List.mem_cons_of_mem _ hg)]
        have hne : pyStr root.nameAttr ≠ fileKey g :=
          fun e => hnm (e ▸ List.mem_map_of_mem fileKey hg)
        simp [lookupSuite, hne]
      have hdocs1 : ∀ g ∈ fs, isDoc g = true :=
        fun g hg => hdocs g (List.mem_cons_of_mem _ hg)
      have hnodup1 : (fs.map fileKey).Nodup := by
        rw [List.map_cons, List.nodup_cons] at hnodup
        exact hnodup.2
      rw [ih _ _ _ hdocs1 hfresh1 hnodup1]
      simp only [List.map_cons, List.sum_cons, List.append_assoc, List.cons_append,
        List.nil_append]
      have e1 : soloEntry { path := path, content := .doc root }
          = (pyStr root.nameAttr, builtSuite path root) := rfl
      have e2 : soloFileCount { path := path, content := .doc root }
          = workerFileCount path root := rfl
      have e3 : soloTestCount { path := path, content := .doc root }
          = extractCount path root := rfl
      rw [e1, e2, e3, Nat.add_assoc, Nat.add_assoc]

/-- A completed run over document files with pairwise-distinct fresh names:
the registry is the per-file entries in completion order and every total is a
plain sum. -/
theorem extract_of_docs (l : List InputFile)
    (hdocs : ∀ f ∈ l.filter (fun f => discoveryKeeps f.path), isDoc f = true)
    (hnodup : ((l.filter (fun f => discoveryKeeps f.path)).map fileKey).Nodup)
    (hne : l.filter (fun f => discoveryKeeps f.path) ≠ []) :
    extract_junit_from_test_run l
      = .ok { registry := (l.filter (fun f => discoveryKeeps f.path)).map soloEntry,
              archive_count := 0,
              test_file_count := ((l.filter (fun f => discoveryKeeps f.path)).map soloFileCount).sum,
              test_count := ((l.filter (fun f => discoveryKeeps f.path)).map soloTestCount).sum,
              passed := sumPassed ((l.filter (fun f => discoveryKeeps f.path)).map soloEntry),
              failed := sumFailed ((l.filter (fun f => discoveryKeeps f.path)).map soloEntry),
              skipped := sumSkipped ((l.filter (fun f => discoveryKeeps f.path)).map soloEntry) } := by
  have hlen : ((l.filter (fun f => discoveryKeeps f.path)).length != 0) = true := by
    simp only [bne_iff_ne, ne_eq, List.length_eq_zero]
    exact hne
  simp only [extract_junit_from_test_run, check_file_condition]
  rw [if_pos hlen, processAll_of_docs _ [] 0 0 hdocs (fun f _ => rfl) hnodup]
  simp

/-- C8 counterexample: with two files declaring the same suite name but
different case counts, the completion order decides which file wins the name
(lines 179-183), so the reported test count and passed total differ between
the two orders: (files, suites, tests, passed, failed, skipped) is
(1, 1, 1, 1, 0, 0) for one order and (1, 1, 2, 2, 0, 0) for the other. -/
theorem C8_collision_totals_order_dependent :
    totalsOf (extract_junit_from_test_run [fileA, fileB]) = some (1, 1, 1, 1, 0, 0)
    ∧ totalsOf (extract_junit_from_test_run [fileB, fileA]) = some (1, 1, 2, 2, 0, 0) :=
  ⟨rfl, rfl⟩

/-- C8 amended: when every discovered file parses as a document and the
declared suite names of the discovered files are pairwise distinct — the
"one file, one suite" contract the source relies on — the final aggregate
totals (file count, suite count, test count, and summed
passed/failed/skipped) are identical for every completion order of the
per-file workers: accumulation is commutative and the registry is keyed by
suite name. With a suite-name collision the totals are order-dependent, as
the counterexample shows. -/
theorem C8_distinct_names_totals_order_invariant (l1 l2 : List InputFile)
    (hperm : l1.Perm l2)
    (hdocs : ∀ f ∈ l1.filter (fun f => discoveryKeeps f.path), isDoc f = true)
    (hnodup : ((l1.filter (fun f => discoveryKeeps f.path)).map fileKey).Nodup) :
    totalsOf (extract_junit_from_test_run l1) = totalsOf (extract_junit_from_test_run l2) := by
  have hq : (l1.filter (fun f => discoveryKeeps f.path)).Perm
      (l2.filter (fun f => discoveryKeeps f.path)) := hperm.filter _
  have hdocs2 : ∀ f ∈ l2.filter (fun f => discoveryKeeps f.path), isDoc f = true :=
    fun f hf => hdocs f (hq.mem_iff.mpr hf)
  have hnodup2 : ((l2.filter (fun f => discoveryKeeps f.path)).map fileKey).Nodup :=
    ((hq.map fileKey).nodup_iff).mp hnodup
  by_cases hn : l1.filter (fun f => discoveryKeeps f.path) = []
  · have hn2 : l2.filter (fun f => discoveryKeeps f.path) = [] :=
      (hn ▸ hq).symm.eq_nil
    simp [extract_junit_from_test_run, check_file_condition, hn, hn2, totalsOf]
  · have hn2 : l2.filter (fun f => discoveryKeeps f.path) ≠ [] := by
      intro he
      exact hn (he ▸ hq.symm).symm.eq_nil
    rw [extract_of_docs l1 hdocs hnodup hn, extract_of_docs l2 hdocs2 hnodup2 hn2]
    have hentry : ((l1.filter (fun f => discoveryKeeps f.path)).map soloEntry).Perm
        ((l2.filter (fun f => discoveryKeeps f.path)).map soloEntry) := hq.map _
    simp only [totalsOf, Option.some_inj]
    refine Prod.ext ?_ (Prod.ext ?_ (Prod.ext ?_ (Prod.ext ?_ (Prod.ext ?_ ?_)))) <;>
      simp only []
    · exact (hq.map soloFileCount).sum_eq
    · exact hentry.length_eq
    · exact (hq.map soloTestCount).sum_eq
    · exact (hentry.map (fun e => e.2.passed)).sum_eq
    · exact (hentry.map (fun e => e.2.failed)).sum_eq
    · exact (hentry.map (fun e => e.2.skipped)).sum_eq

/-- Witness for C8: two document files with distinct suite names, processed
in both orders, give equal totals. -/
theorem C8_distinct_names_totals_order_invariant_witness :
    totalsOf (extract_junit_from_test_run [fileA, fileC])
      = totalsOf (extract_junit_from_test_run [fileC, fileA]) :=
  C8_distinct_names_totals_order_invariant [fileA, fileC] [fileC, fileA]
    (List.Perm.swap fileC fileA []) (by decide) (by decide)

/-! ## C9 — zero-contribution suites persist in the registry -/

/-- When the filename matches the secondary exclusion or the document has no
`testcase` element below the root, the built suite is exactly the fresh empty
suite and the extracted count is zero. -/
theorem builtSuite_of_zero_contribution (path : String) (root : XMLElement)
    (hxml : strContains path ".xml" = true)
    (hz : strContains path "logback" = true ∨ strContains path "checkstyle" = true
        ∨ findallAnywhere "testcase" root = []) :
    builtSuite path root = newSuite (pyStr root.nameAttr) path
    ∧ extractCount path root = 0 := by
  by_cases hex : (xml_exclusions_extract.any (fun x => strContains path x)) = true
  · constructor <;> simp [builtSuite, extractCount, extract_test_cases, hxml, hex]
  · have h0 : (findallAnywhere "testcase" root).length = 0 := by
      rcases hz with h | h | h
      · exact absurd (by simp [xml_exclusions_extract, h]) hex
      · exact absurd (by simp [xml_exclusions_extract, h]) hex
      · rw [h]; rfl
    constructor <;> simp [builtSuite, extractCount, extract_test_cases, hxml, hex, h0]

/-- C9: a file that parses and claims a fresh suite name leaves a registry
entry behind even when it ends up contributing zero files and zero tests
(secondary logback/checkstyle exclusion, or no `testcase` elements): the
insert at line 183 happens before the exclusion and emptiness checks of
`extract_test_cases`, and nothing removes the entry. Consequently the
reported suite count can exceed the contributing-file count, as the concrete
one-file run shows: totals (files, suites, tests, passed, failed, skipped)
are (0, 1, 0, 0, 0, 0). -/
theorem C9_zero_contribution_suite_persists :
    (∀ (reg : Registry) (path : String) (root : XMLElement),
        (lookupSuite reg (pyStr root.nameAttr)).isSome = false →
        strContains path ".xml" = true →
        (strContains path "logback" = true ∨ strContains path "checkstyle" = true
          ∨ findallAnywhere "testcase" root = []) →
        (process_xml_file reg { path := path, content := .doc root }).registry
            = reg ++ [(pyStr root.nameAttr, newSuite (pyStr root.nameAttr) path)]
        ∧ (process_xml_file reg { path := path, content := .doc root }).result = .ok (0, 0))
    ∧ totalsOf (extract_junit_from_test_run [{ path := "logback.xml", content := .doc sampleDoc }])
        = some (0, 1, 0, 0, 0, 0) := by
  constructor
  · intro reg path root hfresh hxml hz
    obtain ⟨hsuite, hcount⟩ := builtSuite_of_zero_contribution path root hxml hz
    constructor
    · rw [(process_doc_fresh reg path root hfresh).1, hsuite]
    · rw [(process_doc_fresh reg path root hfresh).2, hcount]
      unfold workerFileCount
      rw [hcount]
      rfl
  · rfl

/-- Witness for C9 at the concrete excluded-but-valid file. -/
theorem C9_zero_contribution_suite_persists_witness :
    (process_xml_file [] { path := "logback.xml", content := .doc sampleDoc }).registry
        = [] ++ [(pyStr sampleDoc.nameAttr, newSuite (pyStr sampleDoc.nameAttr) "logback.xml")]
    ∧ (process_xml_file [] { path := "logback.xml", content := .doc sampleDoc }).result
        = .ok (0, 0) :=
  C9_zero_contribution_suite_persists.1 [] "logback.xml" sampleDoc
    (by decide) (by decide) (Or.inl (by decide))

end CIParser

